import Mathlib

/-
Verification of the forecasting pipeline in scripts/fit_bexar_mask.py.

The embedding below translates the data-alignment, calibration and
forecasting code into executable Lean definitions: pandas/numpy series
become lists of rationals, a mobility frame becomes a list of six-entry
rows, numpy index errors become Option failures, and the external SIRNet
simulator is an abstract function parameter.
-/

namespace FitBexar

/-- One day of mobility-category values; the source data has six entries
per row (Retail, Grocery, Parks, Transit, Workplace, Residential). -/
abbrev Row := List ℚ

/-- The raw per-day records returned by the data source, ordered by date.
All series have one entry per day; population is constant for the run. -/
structure RawData where
  mobility : List Row
  cases : List ℚ
  dates : List String
  population : ℚ
deriving DecidableEq

/-- The configuration fields of params that load_data reads. -/
structure LoadParams where
  delay_days : ℕ
  start_model : ℕ
  mask_modifier : Bool
  mask_day : ℕ
deriving DecidableEq

/-- The tuple (mobility, cases, day0, population, prev_cases) returned by
load_data. -/
structure LoadResult where
  mobility : List Row
  cases : List ℚ
  day0 : String
  population : ℚ
  prev_cases : ℚ
deriving DecidableEq

/-- Python slice l[:-d].  For d = 0 this is l[:0], the empty list (since
-0 = 0); for d >= 1 it keeps all but the last d entries. -/
def pySliceNeg (l : List Row) (d : ℕ) : List Row :=
  if d = 0 then [] else l.take (l.length - d)

/-- The data-cleaning override mobility[-1][-1] = v (line 70 of the
source).  numpy raises IndexError on an empty array, modelled as none;
otherwise the last entry of the last row is replaced by v. -/
def overrideLastLast (l : List Row) (v : ℚ) : Option (List Row) :=
  match l.getLast? with
  | none => none
  | some row => some (l.set (l.length - 1) (row.set (row.length - 1) v))

/-- The slice assignment a[k:, 5] = 1: entry 5 of every row at index >= k
is set to 1 (a no-op on rows shorter than six entries, which do not occur
in well-formed data). -/
def setMandateFrom (k : ℕ) (l : List Row) : List Row :=
  l.take k ++ (l.drop k).map (fun row => row.set 5 1)

/-- Line 73 of the source, mobility[:, :6] = 1.0 + mobility[:, :6] / 100.0:
every percentage-of-change value becomes a fraction of baseline activity
(the frame has exactly six columns, so the assignment covers every
entry). -/
def pctRows (l : List Row) : List Row :=
  l.map (fun row => row.map (fun v => 1 + v / 100))

/-- Line 76 of the source, mobility[:, 5] = 0: the mandate column is
cleared. -/
def zeroMandateRows (l : List Row) : List Row :=
  l.map (fun row => row.set 5 0)

/-- Lines 76-78 of the source: clear the mandate column, then set it to 1
from mask_day on when mask-modeling is enabled. -/
def mandateStep (mm : Bool) (md : ℕ) (l : List Row) : List Row :=
  let l0 := zeroMandateRows l
  if mm then setMandateFrom md l0 else l0

/-- Shallow embedding of load_data (lines 33-84 of the source): look up
day0 and prev_cases, drop the first delay_days case entries and the last
delay_days mobility rows, apply the hard-coded override, convert
percentages to fractions of activity, overwrite the mandate column, and
drop the first start_model entries of both series.  Out-of-range lookups
(pandas KeyError / numpy IndexError) yield none. -/
def loadData (raw : RawData) (p : LoadParams) : Option LoadResult :=
  let total_delay := p.delay_days + p.start_model
  match raw.dates[total_delay]?,
        raw.cases[total_delay - (if 0 < total_delay then 1 else 0)]? with
  | some day0, some prev_cases =>
    let cases1 := raw.cases.drop p.delay_days
    let mobility1 := pySliceNeg raw.mobility p.delay_days
    match overrideLastLast mobility1 17 with
    | none => none
    | some mobility2 =>
      let mobility5 := mandateStep p.mask_modifier p.mask_day (pctRows mobility2)
      some { mobility := mobility5.drop p.start_model,
             cases := cases1.drop p.start_model,
             day0 := day0,
             population := raw.population,
             prev_cases := prev_cases }
  | _, _ => none

/-- Well-formed raw data: the three per-day series have equal length and
every mobility row has the six category entries. -/
def RawData.WF (raw : RawData) : Prop :=
  raw.cases.length = raw.mobility.length ∧
  raw.dates.length = raw.mobility.length ∧
  ∀ row ∈ raw.mobility, row.length = 6

/-- The mandate-column entry of the aligned mobility series at day t. -/
def mandateAt (res : LoadResult) (t : ℕ) : ℚ :=
  (res.mobility.getD t []).getD 5 0

/-- Variant of loadData with the hard-coded override of line 70 removed,
used to state that the override is dead weight for the returned values. -/
def loadDataNoOverride (raw : RawData) (p : LoadParams) : Option LoadResult :=
  let total_delay := p.delay_days + p.start_model
  match raw.dates[total_delay]?,
        raw.cases[total_delay - (if 0 < total_delay then 1 else 0)]? with
  | some day0, some prev_cases =>
    let cases1 := raw.cases.drop p.delay_days
    let mobility1 := pySliceNeg raw.mobility p.delay_days
    let mobility5 := mandateStep p.mask_modifier p.mask_day (pctRows mobility1)
    some { mobility := mobility5.drop p.start_model,
           cases := cases1.drop p.start_model,
           day0 := day0,
           population := raw.population,
           prev_cases := prev_cases }
  | _, _ => none

/-- Elementwise numpy division of the case series by the scale factor
(line 275: Y = Y / scale_factor).  numpy does not raise on a zero
divisor: it produces non-finite values (inf or nan), which the rational
embedding marks as none. -/
def npRescale (cases : List ℚ) (scale_factor : ℚ) : List (Option ℚ) :=
  cases.map (fun c => if scale_factor = 0 then none else some (c / scale_factor))

/-- Configuration-time errors that section 7 of the design document asks
to be raised before the simulator is invoked. -/
inductive ConfigError where
  | invalidReportingRate
  | zeroScaleFactor
deriving DecidableEq

/-- The data produced by the pipeline loop body before the simulator fit
is invoked: the scale factor and the rescaled case series. -/
structure PreFit where
  scale_factor : ℚ
  Y : List (Option ℚ)
deriving DecidableEq

/-- Shallow embedding of the pre-fit part of the pipeline loop body
(lines 268-283): compute scale_factor = population * reporting_rate and
divide the case series by it.  The source performs no validation of the
reporting rate or the scale factor, so the Except wrapper (which a
configuration check would use to reject bad rates) never carries an
error: the body is straight-line code that always reaches the fit call. -/
def pipelinePreFit (population reporting_rate : ℚ) (cases : List ℚ) :
    Except ConfigError PreFit :=
  let scale_factor := population * reporting_rate
  Except.ok { scale_factor := scale_factor, Y := npRescale cases scale_factor }

/-- Configuration-time validation as section 7 of the design document
words it: a reporting rate outside (0,1] or a zero scale factor is
rejected before the fit is reached.  This definition follows the
specification text, for comparison with pipelinePreFit above. -/
def specValidatedPreFit (population reporting_rate : ℚ) (cases : List ℚ) :
    Except ConfigError PreFit :=
  if ¬ (0 < reporting_rate ∧ reporting_rate ≤ 1) then
    Except.error ConfigError.invalidReportingRate
  else if population * reporting_rate = 0 then
    Except.error ConfigError.zeroScaleFactor
  else
    pipelinePreFit population reporting_rate cases

/-- Initial infectious fraction (line 103 of the source):
i0 = prev_cases / scale_factor. -/
def initI0 (prev_cases scale_factor : ℚ) : ℚ :=
  prev_cases / scale_factor

/-- Initial exposed fraction (line 104 of the source):
e0 = estimated_r0 * i0 / incubation_days. -/
def initE0 (estimated_r0 i0 incubation_days : ℚ) : ℚ :=
  estimated_r0 * i0 / incubation_days

/-- The external SIRNet model, abstracted by its forward contract: a
mobility trajectory in, one (infectious fraction, removed fraction) pair
per day out. -/
abbrev SIRModel := List Row → List (ℚ × ℚ)

/-- The external trainer, abstracted as a deterministic function of the
weights path, the initial conditions, the training data and the
iteration schedule. -/
abbrev TrainerFun := String → ℚ → ℚ → List Row → List (Option ℚ) → ℕ → ℕ → SIRModel

/-- The configuration fields of params that model_and_fit reads. -/
structure FitParams where
  estimated_r0 : ℚ
  incubation_days : ℚ
  n_epochs : ℕ
  lr_step_size : ℕ
deriving DecidableEq

/-- Shallow embedding of model_and_fit (lines 87-111): derive the initial
conditions from prev_cases and the scale factor, then hand everything to
the external trainer. -/
def model_and_fit (trn : TrainerFun) (weights_name : String) (X : List Row)
    (Y : List (Option ℚ)) (scale_factor prev_cases : ℚ) (fp : FitParams) : SIRModel :=
  let i0 := initI0 prev_cases scale_factor
  let e0 := initE0 fp.estimated_r0 i0 fp.incubation_days
  trn weights_name e0 i0 X Y fp.n_epochs fp.lr_step_size

/-- The configuration fields of params that forecast reads. -/
structure ForecastParams where
  mobility_cases : List ℚ
  forecast_days : ℕ
  mask_modifier : Bool
  mask_day : ℕ
deriving DecidableEq

/-- The extended mobility trajectory built inside the forecast loop
(lines 133-138): a constant row of value case/100 with entry 5 forced to
0, replicated over the forecast horizon, appended to the historical
mobility; when mask-modeling is enabled the mandate column of the
concatenation is set to 1 from mask_day on. -/
def buildTrajectory (X : List Row) (case : ℚ) (fd : ℕ) (mm : Bool) (md : ℕ) :
    List Row :=
  let xN := (List.replicate 6 (case / 100)).set 5 0
  let rX := X ++ List.replicate fd xN
  if mm then setMandateFrom md rX else rX

/-- One iteration of the forecast loop (lines 132-142): run the model
over the extended trajectory and rescale the infectious fraction to
active cases and the infectious plus removed fraction to total cases. -/
def forecastOne (X : List Row) (model : SIRModel) (scale_factor : ℚ)
    (case : ℚ) (fd : ℕ) (mm : Bool) (md : ℕ) : List ℚ × List ℚ :=
  let s := model (buildTrajectory X case fd mm md)
  (s.map (fun q => q.1 * scale_factor),
   s.map (fun q => (q.1 + q.2) * scale_factor))

/-- numpy max of a series (none on an empty array, where numpy raises). -/
def npMax : List ℚ → Option ℚ
  | [] => none
  | x :: xs => some (xs.foldl max x)

/-- Index of the first occurrence of value m in the series, the search
part of numpy argmax. -/
def firstIdxOf (m : ℚ) : List ℚ → Option ℕ
  | [] => none
  | x :: xs => if x = m then some 0 else (firstIdxOf m xs).map (fun i => i + 1)

/-- numpy argmax of a series: the index of the first occurrence of the
maximum (none on an empty array, where numpy raises). -/
def npArgmax (l : List ℚ) : Option ℕ :=
  (npMax l).bind (fun m => firstIdxOf m l)

/-- The reporting step of the forecast loop (lines 144-149): the peak
value M = np.max(active), the peak index idx = np.argmax(active) and the
date dates[idx] printed for that index. -/
def reportPeak (active : List ℚ) (dates : List String) :
    Option (ℚ × ℕ × String) :=
  match npMax active, npArgmax active with
  | some M, some idx =>
    match dates[idx]? with
    | some d => some (M, idx, d)
    | none => none
  | _, _ => none

/-- The whole forecast call for one fitted model (lines 114-151): one
(active, total) pair per configured mobility case, keyed by the case. -/
def forecastAll (X : List Row) (model : SIRModel) (scale_factor : ℚ)
    (fo : ForecastParams) : List (ℚ × (List ℚ × List ℚ)) :=
  fo.mobility_cases.map
    (fun case =>
      (case, forecastOne X model scale_factor case fo.forecast_days
        fo.mask_modifier fo.mask_day))

/-- The body of the reporting-rate loop of pipeline (lines 268-300) for
one rate: compute the scale factor, rescale the cases, name the weights
file for this rate, fit the model and forecast every mobility case. -/
def rateBody (trn : TrainerFun) (mobility : List Row) (cases : List ℚ)
    (population prev_cases : ℚ) (county_name weights_dir_base : String)
    (fp : FitParams) (fo : ForecastParams) (rate : ℚ) :
    List (ℚ × (List ℚ × List ℚ)) :=
  let scale_factor := population * rate
  let Y := npRescale cases scale_factor
  let weights_name :=
    weights_dir_base ++ "/" ++ county_name ++ "_report" ++ toString rate
      ++ "_weights.pt"
  let model := model_and_fit trn weights_name mobility Y scale_factor prev_cases fp
  forecastAll mobility model scale_factor fo

/-- A Python dictionary filled by a loop, for rate in rates:
dict[rate] = F rate; modelled as iterated update of a lookup function
starting from the empty dictionary. -/
def updateLoop {α : Type} (F : ℚ → α) (rates : List ℚ) : ℚ → Option α :=
  rates.foldl (fun acc rate => Function.update acc rate (some (F rate)))
    (fun _ => none)

/-- The reporting-rate loop of pipeline: the dictionaries actives and
totals are filled by keyed assignment, one entry per processed rate. -/
def pipelineRatesLoop (trn : TrainerFun) (mobility : List Row) (cases : List ℚ)
    (population prev_cases : ℚ) (county_name weights_dir_base : String)
    (fp : FitParams) (fo : ForecastParams) (rates : List ℚ) :
    ℚ → Option (List (ℚ × (List ℚ × List ℚ))) :=
  updateLoop
    (rateBody trn mobility cases population prev_cases county_name
      weights_dir_base fp fo)
    rates

/-! Concrete data for evaluating the embedding on closed inputs. -/

/-- Placeholder result used as the default when extracting from an
Option. -/
def emptyResult : LoadResult :=
  { mobility := [], cases := [], day0 := "", population := 0, prev_cases := 0 }

/-- A concrete six-day raw record series. -/
def sampleRaw : RawData :=
  { mobility := [[0, 0, 0, 0, 0, 0], [10, 10, 10, 10, 10, 10],
                 [20, -20, 0, 40, 5, 30], [1, 2, 3, 4, 5, 6],
                 [7, 8, 9, 10, 11, 12], [13, 14, 15, 16, 17, 18]],
    cases := [1, 2, 3, 5, 8, 13],
    dates := ["2020-03-01", "2020-03-02", "2020-03-03", "2020-03-04",
              "2020-03-05", "2020-03-06"],
    population := 1000000 }

/-- A concrete two-day raw record series, long enough to make the
delayDays = 0, startModelOffset = 0 configuration valid. -/
def shortRaw : RawData :=
  { mobility := [[1, 2, 3, 4, 5, 6], [7, 8, 9, 10, 11, 12]],
    cases := [3, 4],
    dates := ["2020-03-01", "2020-03-02"],
    population := 1000 }

/-- Aligned result of loadData on sampleRaw with delay 1, warm-up offset
2 and mask-modeling from day 3. -/
def maskedResult : LoadResult :=
  (loadData sampleRaw
    { delay_days := 1, start_model := 2, mask_modifier := true,
      mask_day := 3 }).getD emptyResult

/-- Aligned result of loadData on sampleRaw with delay 1 and no warm-up
offset or mask-modeling. -/
def plainResult : LoadResult :=
  (loadData sampleRaw
    { delay_days := 1, start_model := 0, mask_modifier := false,
      mask_day := 65 }).getD emptyResult

/-- Aligned result of loadData on sampleRaw with delay 1 and warm-up
offset 1. -/
def offsetResult : LoadResult :=
  (loadData sampleRaw
    { delay_days := 1, start_model := 1, mask_modifier := false,
      mask_day := 65 }).getD emptyResult

/-- A model with constant per-day compartment output, standing in for
the external simulator in closed evaluations. -/
def constModel : SIRModel :=
  fun l => List.replicate l.length ((1 : ℚ), (2 : ℚ))

/-- A trainer that returns the constant model whatever its inputs. -/
def constTrainer : TrainerFun :=
  fun _ _ _ _ _ _ _ => constModel

/-! Helper lemmas about the list operations of the embedding. -/

/-- A getD lookup is determined by a successful getElem? lookup. -/
theorem getD_of_getElem? {α : Type} (l : List α) (t : ℕ) (d a : α)
    (h : l[t]? = some a) : l.getD t d = a := by
  rw [List.getD_eq_getElem?_getD, h]
  rfl

/-- An in-range lookup after a set reads the written value back. -/
theorem getD_set_self (l : Row) (i : ℕ) (a : ℚ) (h : i < l.length) :
    (l.set i a).getD i 0 = a := by
  rw [List.getD_eq_getElem?_getD, List.getElem?_set_eq_of_lt a h]
  rfl

/-- Setting an index to the value it already holds is the identity. -/
theorem set_getElem?_self {α : Type} (l : List α) (i : ℕ) (a : α)
    (h : l[i]? = some a) : l.set i a = l := by
  induction l generalizing i with
  | nil => simp at h
  | cons x xs ih =>
    cases i with
    | zero =>
      simp only [List.getElem?_cons_zero, Option.some.injEq] at h
      simp [h]
    | succ n =>
      simp only [List.getElem?_cons_succ] at h
      simp [ih n h]

/-- A successful lookup is within bounds. -/
theorem lt_length_of_getElem? {α : Type} (l : List α) (i : ℕ) (a : α)
    (h : l[i]? = some a) : i < l.length := by
  by_contra hc
  rw [List.getElem?_eq_none_iff.mpr (by omega)] at h
  exact Option.noConfusion h

/-- Length of the Python slice l[:-d] for d >= 1. -/
theorem length_pySliceNeg (l : List Row) (d : ℕ) (hd : 1 ≤ d) :
    (pySliceNeg l d).length = l.length - d := by
  unfold pySliceNeg
  rw [if_neg (by omega)]
  simp [List.length_take]

/-- Entries of the Python slice l[:-d] agree with l below the cut. -/
theorem getElem?_pySliceNeg (l : List Row) (d : ℕ) (hd : 1 ≤ d) (t : ℕ)
    (ht : t < l.length - d) : (pySliceNeg l d)[t]? = l[t]? := by
  unfold pySliceNeg
  rw [if_neg (by omega), List.getElem?_take, if_pos (by omega)]

/-- Rows of the Python slice l[:-d] are rows of l. -/
theorem mem_of_mem_pySliceNeg (l : List Row) (d : ℕ) (row : Row)
    (h : row ∈ pySliceNeg l d) : row ∈ l := by
  unfold pySliceNeg at h
  by_cases hd : d = 0
  · rw [if_pos hd] at h; simp at h
  · rw [if_neg hd] at h; exact List.mem_of_mem_take h

/-- Inversion of the data-cleaning override: on success the input list was
nonempty and only its last row was modified, in its last entry. -/
theorem overrideLastLast_inv (l : List Row) (v : ℚ) (m2 : List Row)
    (h : overrideLastLast l v = some m2) :
    ∃ row, l.getLast? = some row ∧
      m2 = l.set (l.length - 1) (row.set (row.length - 1) v) := by
  unfold overrideLastLast at h
  cases hl : l.getLast? with
  | none => rw [hl] at h; exact Option.noConfusion h
  | some row =>
    rw [hl] at h
    exact ⟨row, rfl, (Option.some.injEq _ _ ▸ h).symm⟩

/-- The override fails exactly on the empty list. -/
theorem overrideLastLast_nil (v : ℚ) : overrideLastLast [] v = none := rfl

/-- The override preserves the list length and the row lengths. -/
theorem overrideLastLast_rows (l : List Row) (v : ℚ) (m2 : List Row)
    (h : overrideLastLast l v = some m2) (hrows : ∀ row ∈ l, row.length = 6) :
    m2.length = l.length ∧ ∀ row ∈ m2, row.length = 6 := by
  obtain ⟨row, hlast, rfl⟩ := overrideLastLast_inv l v m2 h
  have hrow : row ∈ l := by
    rw [List.getLast?_eq_getElem?] at hlast
    exact List.getElem?_mem hlast
  refine ⟨by simp, ?_⟩
  intro r hr
  rcases List.mem_or_eq_of_mem_set hr with h1 | h1
  · exact hrows r h1
  · rw [h1, List.length_set]
    exact hrows row hrow

/-- Entries of the override below the last index are unchanged. -/
theorem getElem?_overrideLastLast (l : List Row) (v : ℚ) (m2 : List Row)
    (h : overrideLastLast l v = some m2) (t : ℕ) (ht : t < l.length - 1) :
    m2[t]? = l[t]? := by
  obtain ⟨row, _, rfl⟩ := overrideLastLast_inv l v m2 h
  exact List.getElem?_set_ne (by omega)

/-- Length of the mandate slice assignment. -/
theorem length_setMandateFrom (k : ℕ) (l : List Row) :
    (setMandateFrom k l).length = l.length := by
  unfold setMandateFrom
  simp [List.length_take, List.length_drop]
  omega

/-- Pointwise description of the mandate slice assignment. -/
theorem getElem?_setMandateFrom (k : ℕ) (l : List Row) (t : ℕ) :
    (setMandateFrom k l)[t]? =
      if t < k then l[t]? else (l[t]?).map (fun row => row.set 5 1) := by
  unfold setMandateFrom
  rw [List.getElem?_append, List.length_take]
  by_cases hmin : t < min k l.length
  · rw [if_pos hmin, List.getElem?_take, if_pos (by omega), if_pos (by omega)]
  · rw [if_neg hmin]
    by_cases hk : t < k
    · have hl : l.length ≤ t := by omega
      have h1 : l.drop k = [] := List.drop_eq_nil_of_le (by omega)
      rw [if_pos hk, h1, List.getElem?_eq_none_iff.mpr hl]
      simp
    · rw [if_neg hk]
      by_cases hkl : k ≤ l.length
      · have hm : min k l.length = k := by omega
        rw [hm, List.getElem?_map, List.getElem?_drop]
        have ht : k + (t - k) = t := by omega
        rw [ht]
      · have h1 : l.drop k = [] := List.drop_eq_nil_of_le (by omega)
        have hm : min k l.length = l.length := by omega
        rw [hm, h1, List.getElem?_eq_none_iff.mpr (show l.length ≤ t by omega)]
        simp

/-- Length and rows of the percentage conversion. -/
theorem pctRows_rows (l : List Row) (hrows : ∀ row ∈ l, row.length = 6) :
    (pctRows l).length = l.length ∧ ∀ row ∈ pctRows l, row.length = 6 := by
  refine ⟨by simp [pctRows], ?_⟩
  intro row hrow
  rw [pctRows, List.mem_map] at hrow
  obtain ⟨orig, horig, rfl⟩ := hrow
  simp [hrows orig horig]

/-- Pointwise description of the combined clear-then-enable mandate step:
lengths are preserved, the six-entry row shape is preserved, and the
mandate entry of the row at index t is 1 exactly when mask-modeling is
enabled and t is at or after the mandate day. -/
theorem mandateStep_spec (mm : Bool) (md : ℕ) (l : List Row)
    (hrows : ∀ row ∈ l, row.length = 6) :
    (mandateStep mm md l).length = l.length ∧
    (∀ row ∈ mandateStep mm md l, row.length = 6) ∧
    ∀ t row, (mandateStep mm md l)[t]? = some row →
      row.getD 5 0 = if mm = true ∧ md ≤ t then 1 else 0 := by
  have hz : ∀ (t : ℕ) (row : Row), (zeroMandateRows l)[t]? = some row →
      row.length = 6 ∧ row.getD 5 0 = 0 := by
    intro t row h
    rw [zeroMandateRows, List.getElem?_map] at h
    cases ho : l[t]? with
    | none => rw [ho] at h; exact Option.noConfusion h
    | some orig =>
      rw [ho] at h
      simp only [Option.map_some', Option.some.injEq] at h
      have h6 : orig.length = 6 := hrows orig (List.getElem?_mem ho)
      subst h
      exact ⟨by simp [h6], getD_set_self orig 5 0 (by omega)⟩
  have hzlen : (zeroMandateRows l).length = l.length := by simp [zeroMandateRows]
  have hzrows : ∀ row ∈ zeroMandateRows l, row.length = 6 := by
    intro row hrow
    rw [zeroMandateRows, List.mem_map] at hrow
    obtain ⟨orig, horig, rfl⟩ := hrow
    simp [hrows orig horig]
  unfold mandateStep
  cases mm with
  | false =>
    refine ⟨hzlen, hzrows, ?_⟩
    intro t row h
    rw [if_neg (by simp)] at h
    simp only [Bool.false_eq_true, false_and, if_false]
    exact (hz t row h).2
  | true =>
    rw [if_pos rfl]
    refine ⟨by rw [length_setMandateFrom, hzlen], ?_, ?_⟩
    · intro row hrow
      rw [setMandateFrom, List.mem_append] at hrow
      rcases hrow with h1 | h1
      · exact hzrows row (List.mem_of_mem_take h1)
      · rw [List.mem_map] at h1
        obtain ⟨orig, horig, rfl⟩ := h1
        rw [List.length_set]
        exact hzrows orig (List.mem_of_mem_drop horig)
    · intro t row h
      rw [getElem?_setMandateFrom] at h
      by_cases ht : t < md
      · rw [if_pos ht] at h
        simp only [true_and]
        rw [if_neg (by omega)]
        exact (hz t row h).2
      · rw [if_neg ht] at h
        cases ho : (zeroMandateRows l)[t]? with
        | none => rw [ho] at h; exact Option.noConfusion h
        | some orig =>
          rw [ho] at h
          simp only [Option.map_some', Option.some.injEq] at h
          subst h
          simp only [true_and]
          rw [if_pos (by omega)]
          have h6 : orig.length = 6 := (hz t orig ho).1
          exact getD_set_self orig 5 1 (by omega)

/-- Inversion of loadData: a successful run determines every field of the
result in terms of the raw inputs. -/
theorem loadData_inv (raw : RawData) (p : LoadParams) (res : LoadResult)
    (h : loadData raw p = some res) :
    ∃ m2 : List Row,
      raw.dates[p.delay_days + p.start_model]? = some res.day0 ∧
      raw.cases[(p.delay_days + p.start_model) -
        (if 0 < p.delay_days + p.start_model then 1 else 0)]? = some res.prev_cases ∧
      overrideLastLast (pySliceNeg raw.mobility p.delay_days) 17 = some m2 ∧
      res.mobility =
        (mandateStep p.mask_modifier p.mask_day (pctRows m2)).drop p.start_model ∧
      res.cases = (raw.cases.drop p.delay_days).drop p.start_model ∧
      res.population = raw.population := by
  unfold loadData at h
  dsimp only at h
  cases hdate : raw.dates[p.delay_days + p.start_model]? with
  | none => rw [hdate] at h; exact Option.noConfusion h
  | some day0 =>
    rw [hdate] at h
    cases hprev : raw.cases[(p.delay_days + p.start_model) -
        (if 0 < p.delay_days + p.start_model then 1 else 0)]? with
    | none => rw [hprev] at h; exact Option.noConfusion h
    | some prev =>
      rw [hprev] at h
      cases hov : overrideLastLast (pySliceNeg raw.mobility p.delay_days) 17 with
      | none => rw [hov] at h; exact Option.noConfusion h
      | some m2 =>
        rw [hov] at h
        simp only [Option.some.injEq] at h
        subst h
        exact ⟨m2, rfl, rfl, rfl, rfl, rfl, rfl⟩

/-- Reconstruction of a successful loadData run from its pieces. -/
theorem loadData_eq_some (raw : RawData) (p : LoadParams) (day0 : String)
    (prev : ℚ) (m2 : List Row)
    (hdate : raw.dates[p.delay_days + p.start_model]? = some day0)
    (hprev : raw.cases[(p.delay_days + p.start_model) -
      (if 0 < p.delay_days + p.start_model then 1 else 0)]? = some prev)
    (hov : overrideLastLast (pySliceNeg raw.mobility p.delay_days) 17 = some m2) :
    loadData raw p = some
      { mobility :=
          (mandateStep p.mask_modifier p.mask_day (pctRows m2)).drop p.start_model,
        cases := (raw.cases.drop p.delay_days).drop p.start_model,
        day0 := day0,
        population := raw.population,
        prev_cases := prev } := by
  unfold loadData
  dsimp only
  rw [hdate, hprev, hov]

/-- Reconstruction of a successful loadDataNoOverride run. -/
theorem loadDataNoOverride_eq_some (raw : RawData) (p : LoadParams)
    (day0 : String) (prev : ℚ)
    (hdate : raw.dates[p.delay_days + p.start_model]? = some day0)
    (hprev : raw.cases[(p.delay_days + p.start_model) -
      (if 0 < p.delay_days + p.start_model then 1 else 0)]? = some prev) :
    loadDataNoOverride raw p = some
      { mobility :=
          (mandateStep p.mask_modifier p.mask_day
            (pctRows (pySliceNeg raw.mobility p.delay_days))).drop p.start_model,
        cases := (raw.cases.drop p.delay_days).drop p.start_model,
        day0 := day0,
        population := raw.population,
        prev_cases := prev } := by
  unfold loadDataNoOverride
  dsimp only
  rw [hdate, hprev]

/-- Master description of a successful loadData run on well-formed raw
data: the configuration is in range, both aligned series have length
rawLength - delayDays - startModelOffset, all aligned rows keep their six
entries, the mandate column follows the configured mask schedule, and
day0, prev_cases and population come from the indicated raw entries. -/
theorem loadData_success_spec (raw : RawData) (p : LoadParams)
    (res : LoadResult) (hwf : raw.WF) (h : loadData raw p = some res) :
    1 ≤ p.delay_days ∧
    p.delay_days + p.start_model < raw.mobility.length ∧
    res.mobility.length = raw.mobility.length - p.delay_days - p.start_model ∧
    res.cases.length = raw.mobility.length - p.delay_days - p.start_model ∧
    (∀ row ∈ res.mobility, row.length = 6) ∧
    (∀ (t : ℕ) (row : Row), res.mobility[t]? = some row →
      row.getD 5 0 =
        if p.mask_modifier = true ∧ p.mask_day ≤ t + p.start_model then 1
        else 0) ∧
    raw.dates[p.delay_days + p.start_model]? = some res.day0 ∧
    raw.cases[(p.delay_days + p.start_model) -
      (if 0 < p.delay_days + p.start_model then 1 else 0)]? = some res.prev_cases ∧
    res.population = raw.population := by
  obtain ⟨hclen, hdlen, hrows⟩ := hwf
  obtain ⟨m2, hdate, hprev, hov, hmob, hcase, hpop⟩ := loadData_inv raw p res h
  have hd : 1 ≤ p.delay_days := by
    by_contra hc
    have hd0 : p.delay_days = 0 := by omega
    rw [hd0] at hov
    rw [show pySliceNeg raw.mobility 0 = [] from rfl] at hov
    exact Option.noConfusion hov
  have htd : p.delay_days + p.start_model < raw.dates.length :=
    lt_length_of_getElem? raw.dates _ _ hdate
  have htd' : p.delay_days + p.start_model < raw.mobility.length := by omega
  have hm1len : (pySliceNeg raw.mobility p.delay_days).length =
      raw.mobility.length - p.delay_days :=
    length_pySliceNeg raw.mobility p.delay_days hd
  have hm1rows : ∀ row ∈ pySliceNeg raw.mobility p.delay_days, row.length = 6 :=
    fun row hr => hrows row (mem_of_mem_pySliceNeg raw.mobility p.delay_days row hr)
  have hm2 := overrideLastLast_rows _ 17 m2 hov hm1rows
  have hp := pctRows_rows m2 hm2.2
  have hms := mandateStep_spec p.mask_modifier p.mask_day (pctRows m2) hp.2
  have hmslen : (mandateStep p.mask_modifier p.mask_day (pctRows m2)).length =
      raw.mobility.length - p.delay_days := by
    rw [hms.1, hp.1, hm2.1, hm1len]
  refine ⟨hd, htd', ?_, ?_, ?_, ?_, hdate, hprev, hpop⟩
  · rw [hmob, List.length_drop, hmslen]
  · rw [hcase, List.length_drop, List.length_drop, hclen]
  · intro row hrow
    rw [hmob] at hrow
    exact hms.2.1 row (List.mem_of_mem_drop hrow)
  · intro t row hrow
    rw [hmob, List.getElem?_drop] at hrow
    have := hms.2.2 (p.start_model + t) row hrow
    rw [this]
    by_cases hc : p.mask_modifier = true ∧ p.mask_day ≤ p.start_model + t
    · rw [if_pos hc, if_pos ⟨hc.1, by omega⟩]
    · rw [if_neg hc, if_neg (by
        intro hc2
        exact hc ⟨hc2.1, by omega⟩)]

/-- The running maximum of a fold is one of the values folded over. -/
theorem foldl_max_mem (x : ℚ) (xs : List ℚ) : xs.foldl max x ∈ x :: xs := by
  induction xs generalizing x with
  | nil => simp
  | cons a as ih =>
    rw [List.foldl_cons]
    rcases List.mem_cons.mp (ih (max x a)) with h1 | h1
    · rcases max_choice x a with hc | hc
      · rw [h1, hc]
        exact List.mem_cons_self x (a :: as)
      · rw [h1, hc]
        simp
    · simp [List.mem_cons, Or.inr (Or.inr h1)]

/-- The seed of a running-maximum fold bounds nothing above the result. -/
theorem base_le_foldl_max (x : ℚ) (xs : List ℚ) : x ≤ xs.foldl max x := by
  induction xs generalizing x with
  | nil => exact le_refl x
  | cons a as ih =>
    rw [List.foldl_cons]
    exact le_trans (le_max_left x a) (ih (max x a))

/-- Every value folded over is bounded by the running maximum. -/
theorem mem_le_foldl_max (x : ℚ) (xs : List ℚ) (y : ℚ) (hy : y ∈ xs) :
    y ≤ xs.foldl max x := by
  induction xs generalizing x with
  | nil => simp at hy
  | cons a as ih =>
    rw [List.foldl_cons]
    rcases List.mem_cons.mp hy with rfl | hy2
    · exact le_trans (le_max_right x y) (base_le_foldl_max (max x y) as)
    · exact ih (max x a) hy2

/-- firstIdxOf finds exactly the first index holding the sought value. -/
theorem firstIdxOf_spec (m : ℚ) (l : List ℚ) (k : ℕ) (hk : l[k]? = some m)
    (hfirst : ∀ j, j < k → l[j]? ≠ some m) : firstIdxOf m l = some k := by
  induction l generalizing k with
  | nil => simp at hk
  | cons x xs ih =>
    cases k with
    | zero =>
      simp only [List.getElem?_cons_zero, Option.some.injEq] at hk
      subst hk
      simp [firstIdxOf]
    | succ n =>
      have hx : ¬ x = m := by
        have h0 := hfirst 0 (Nat.succ_pos n)
        simpa using h0
      rw [show firstIdxOf m (x :: xs) =
            if x = m then some 0 else (firstIdxOf m xs).map (fun i => i + 1)
          from rfl, if_neg hx]
      have hrec := ih n (by simpa using hk) (fun j hj => by
        have hj1 := hfirst (j + 1) (by omega)
        simpa using hj1)
      rw [hrec]
      rfl

/-- Lookup after the keyed-assignment loop: a key is bound to its result
exactly when it occurs in the processed list, regardless of order. -/
theorem ratesLoop_lookup {α : Type} (F : ℚ → α) (rates : List ℚ)
    (acc : ℚ → Option α) (r : ℚ) :
    (rates.foldl (fun a x => Function.update a x (some (F x))) acc) r =
      if r ∈ rates then some (F r) else acc r := by
  induction rates generalizing acc with
  | nil => simp
  | cons x xs ih =>
    rw [List.foldl_cons, ih]
    by_cases hr : r ∈ xs
    · rw [if_pos hr, if_pos (List.mem_cons.mpr (Or.inr hr))]
    · rw [if_neg hr]
      rcases eq_or_ne r x with rfl | hne
      · rw [Function.update_same, if_pos (List.mem_cons_self r xs)]
      · rw [Function.update_noteq hne,
          if_neg (fun hc => by
            rcases List.mem_cons.mp hc with h1 | h1
            · exact hne h1
            · exact hr h1)]

/-- Lookup into the dictionary built by updateLoop. -/
theorem updateLoop_lookup {α : Type} (F : ℚ → α) (rates : List ℚ) (r : ℚ) :
    updateLoop F rates r = if r ∈ rates then some (F r) else none :=
  ratesLoop_lookup F rates (fun _ => none) r

/-! Claim theorems. -/

/-- Claim C1 (code bug at delayDays = 0): the configuration delayDays = 0,
startModelOffset = 0 on a well-formed two-day series is valid in the sense
of the claim (rawLength - 0 - 0 = 2 > 0), yet load_data returns nothing at
all: the Python slice mobility[:-0] is the empty slice, so the subsequent
hard-coded override raises IndexError instead of the aligned series of
length 2 the claim requires. -/
theorem c1_delay_zero_crash :
    loadData shortRaw
      { delay_days := 0, start_model := 0, mask_modifier := false,
        mask_day := 65 } = none ∧
    shortRaw.WF ∧
    shortRaw.mobility.length - 0 - 0 = 2 := by
  refine ⟨rfl, ⟨rfl, rfl, by decide⟩, rfl⟩

/-- Claim C2 counterexample: with reporting rate 0, a value outside (0,1]
that makes the scale factor 0, the pipeline loop body is not rejected at
configuration time: it computes scale factor 0, the rescaling division
has already produced a non-finite value mid-pipeline, no error is ever
raised before the fit call, while the validation described by the
specification would have rejected the rate. -/
theorem c2_rate_zero_not_rejected :
    pipelinePreFit 1000000 0 [50] =
      Except.ok { scale_factor := 0, Y := [none] } ∧
    (∀ e, pipelinePreFit 1000000 0 [50] ≠ Except.error e) ∧
    specValidatedPreFit 1000000 0 [50] =
      Except.error ConfigError.invalidReportingRate := by
  refine ⟨?_, ?_, ?_⟩
  · simp [pipelinePreFit, npRescale]
  · intro e he
    unfold pipelinePreFit at he
    exact Except.noConfusion he
  · norm_num [specValidatedPreFit]

/-- Claim C2 amended: the pipeline performs no configuration-time
validation at all: for every reporting rate, valid or not, the pre-fit
part of the loop body succeeds and control reaches the fit call, and
whenever the scale factor population times rate is 0 every rescaled case
entry is the non-finite result of the division by zero. -/
theorem c2_no_validation_before_fit (population reporting_rate : ℚ)
    (cases : List ℚ) :
    (∀ e, pipelinePreFit population reporting_rate cases ≠ Except.error e) ∧
    (population * reporting_rate = 0 →
      pipelinePreFit population reporting_rate cases =
        Except.ok { scale_factor := 0, Y := cases.map (fun _ => none) }) := by
  constructor
  · intro e he
    unfold pipelinePreFit at he
    exact Except.noConfusion he
  · intro h0
    unfold pipelinePreFit npRescale
    dsimp only
    rw [h0]
    simp

/-- Witness for the amended C2 statement at the concrete bad rate 0. -/
theorem c2_no_validation_witness :
    pipelinePreFit 1000000 0 [50] ≠
      Except.error ConfigError.zeroScaleFactor ∧
    pipelinePreFit 1000000 0 [50] =
      Except.ok { scale_factor := 0, Y := [none] } := by
  have h := c2_no_validation_before_fit 1000000 0 [50]
  refine ⟨h.1 ConfigError.zeroScaleFactor, ?_⟩
  have h2 := h.2 (by norm_num)
  simpa using h2

/-- Claim C3: whenever load_data returns on well-formed raw data, the
mandate column (column 5) of the aligned mobility series is 0 at every
index when mask-modeling is disabled; when enabled it is 0 strictly below
index maskDay - startModelOffset, 1 at and above it (the transition index
clamping to the series bounds), and monotonically non-decreasing in the
day index. -/
theorem c3_mandate_column (raw : RawData) (p : LoadParams) (res : LoadResult)
    (hwf : raw.WF) (h : loadData raw p = some res) :
    (p.mask_modifier = false →
      ∀ t, t < res.mobility.length → mandateAt res t = 0) ∧
    (p.mask_modifier = true →
      (∀ t, t < res.mobility.length →
        (t < p.mask_day - p.start_model → mandateAt res t = 0) ∧
        (p.mask_day - p.start_model ≤ t → mandateAt res t = 1)) ∧
      (∀ t u, t ≤ u → u < res.mobility.length →
        mandateAt res t ≤ mandateAt res u)) := by
  have hspec := loadData_success_spec raw p res hwf h
  have hval : ∀ t, t < res.mobility.length →
      mandateAt res t =
        if p.mask_modifier = true ∧ p.mask_day ≤ t + p.start_model then 1
        else 0 := by
    intro t ht
    have hrow : res.mobility[t]? = some res.mobility[t] :=
      List.getElem?_eq_getElem ht
    have hv := hspec.2.2.2.2.2.1 t _ hrow
    rw [mandateAt, getD_of_getElem? _ _ _ _ hrow]
    exact hv
  refine ⟨?_, ?_⟩
  · intro hmm t ht
    rw [hval t ht, if_neg (by simp [hmm])]
  · intro hmm
    refine ⟨?_, ?_⟩
    · intro t ht
      refine ⟨?_, ?_⟩
      · intro hlt
        rw [hval t ht, if_neg (fun hc => absurd hc.2 (by omega))]
      · intro hge
        rw [hval t ht, if_pos ⟨hmm, by omega⟩]
    · intro t u htu hu
      have ht : t < res.mobility.length := by omega
      rw [hval t ht, hval u hu]
      by_cases hc : p.mask_day ≤ t + p.start_model
      · rw [if_pos ⟨hmm, hc⟩, if_pos ⟨hmm, by omega⟩]
      · rw [if_neg (fun hx => hc hx.2)]
        split
        · norm_num
        · norm_num

/-- Witness for C3 on concrete data: delay 1, warm-up 2, mandate day 3,
so the aligned transition index is 3 - 2 = 1. -/
theorem c3_mandate_witness :
    mandateAt maskedResult 0 = 0 ∧ mandateAt maskedResult 2 = 1 := by
  have h := c3_mandate_column sampleRaw
    { delay_days := 1, start_model := 2, mask_modifier := true, mask_day := 3 }
    maskedResult ⟨rfl, rfl, by decide⟩ rfl
  exact ⟨((h.2 rfl).1 0 (by decide)).1 (by decide),
         ((h.2 rfl).1 2 (by decide)).2 (by decide)⟩

/-- Claim C4: for every model, scenario and day index of the produced
trajectory, if the per-day removed fraction is non-negative and the scale
factor is a product of non-negative population and reporting rate, the
forecast satisfies active at t at most total at t. -/
theorem c4_total_ge_active (X : List Row) (model : SIRModel)
    (population reporting_rate case : ℚ) (fd : ℕ) (mm : Bool) (md : ℕ)
    (t : ℕ) (hpop : 0 ≤ population) (hrate : 0 ≤ reporting_rate)
    (hrem : ∀ q ∈ model (buildTrajectory X case fd mm md), 0 ≤ q.2) :
    (forecastOne X model (population * reporting_rate) case fd mm
        md).1.getD t 0 ≤
    (forecastOne X model (population * reporting_rate) case fd mm
        md).2.getD t 0 := by
  unfold forecastOne
  dsimp only
  rw [List.getD_eq_getElem?_getD, List.getD_eq_getElem?_getD,
    List.getElem?_map, List.getElem?_map]
  cases hq : (model (buildTrajectory X case fd mm md))[t]? with
  | none => simp
  | some q =>
    simp only [Option.map_some', Option.getD_some]
    have h2 := hrem q (List.getElem?_mem hq)
    have hsf : 0 ≤ population * reporting_rate := mul_nonneg hpop hrate
    rw [add_mul]
    exact le_add_of_nonneg_right (mul_nonneg h2 hsf)

/-- Witness for C4 with a concrete constant model. -/
theorem c4_total_ge_active_witness :
    (forecastOne [[0, 0, 0, 0, 0, 0]] constModel ((10 : ℚ) * (1 / 2)) 0 2
        false 65).1.getD 0 0 ≤
    (forecastOne [[0, 0, 0, 0, 0, 0]] constModel ((10 : ℚ) * (1 / 2)) 0 2
        false 65).2.getD 0 0 :=
  c4_total_ge_active [[0, 0, 0, 0, 0, 0]] constModel 10 (1 / 2) 0 2 false 65 0
    (by norm_num) (by norm_num) (by decide)

/-- Claim C5: the pipeline computes ScaleFactor = population times
reporting rate and rescales Y = cases / ScaleFactor, and the calibrator
derives I0 = prevCases / ScaleFactor and E0 = estimatedR0 * I0 /
incubationDays; at population 1000000 and rate 1/10 the scale factor is
100000, and prevCases = 50 then gives I0 = 1/2000, the 0.0005 of the
claim. -/
theorem c5_scale_rescale_init (population reporting_rate prev_cases
    estimated_r0 incubation_days : ℚ) (cases : List ℚ)
    (hpop : 0 < population) (hrate : 0 < reporting_rate) :
    pipelinePreFit population reporting_rate cases =
      Except.ok
        { scale_factor := population * reporting_rate,
          Y := cases.map (fun c => some (c / (population * reporting_rate))) } ∧
    initI0 prev_cases (population * reporting_rate) =
      prev_cases / (population * reporting_rate) ∧
    initE0 estimated_r0 (initI0 prev_cases (population * reporting_rate))
        incubation_days =
      estimated_r0 * (prev_cases / (population * reporting_rate)) /
        incubation_days ∧
    pipelinePreFit 1000000 (1 / 10) [50] =
      Except.ok { scale_factor := 100000, Y := [some (1 / 2000)] } ∧
    initI0 50 (1000000 * (1 / 10)) = 1 / 2000 := by
  have hne : population * reporting_rate ≠ 0 := by positivity
  refine ⟨?_, rfl, rfl, ?_, ?_⟩
  · simp [pipelinePreFit, npRescale, hne]
  · norm_num [pipelinePreFit, npRescale]
  · norm_num [initI0]

/-- Witness for C5 at the concrete configuration of the claim. -/
theorem c5_scale_rescale_witness :
    pipelinePreFit 1000000 (1 / 10) [50] =
      Except.ok { scale_factor := 100000, Y := [some (1 / 2000)] } ∧
    initI0 50 (1000000 * (1 / 10)) = 1 / 2000 := by
  have h := c5_scale_rescale_init 1000000 (1 / 10) 50 (11 / 5) 5 [50]
    (by norm_num) (by norm_num)
  exact ⟨h.2.2.2.1, h.2.2.2.2⟩

/-- Claim C6: whenever load_data returns, day0 is the record date at index
totalDelay = delayDays + startModelOffset, and prev_cases is the case
count at index totalDelay - 1 when totalDelay is positive and at index
totalDelay itself (necessarily 0) when totalDelay = 0. -/
theorem c6_day0_prev_cases (raw : RawData) (p : LoadParams) (res : LoadResult)
    (h : loadData raw p = some res) :
    raw.dates[p.delay_days + p.start_model]? = some res.day0 ∧
    (0 < p.delay_days + p.start_model →
      raw.cases[p.delay_days + p.start_model - 1]? = some res.prev_cases) ∧
    (p.delay_days + p.start_model = 0 →
      raw.cases[p.delay_days + p.start_model]? = some res.prev_cases) := by
  obtain ⟨m2, hdate, hprev, _, _, _, _⟩ := loadData_inv raw p res h
  refine ⟨hdate, ?_, ?_⟩
  · intro hpos
    rw [if_pos hpos] at hprev
    exact hprev
  · intro hzero
    rw [if_neg (by omega)] at hprev
    simpa using hprev

/-- Witness for C6 on concrete data: totalDelay = 1, so day0 is the date
at index 1 and prev_cases the case count at index 0. -/
theorem c6_day0_prev_witness :
    sampleRaw.dates[1]? = some plainResult.day0 ∧
    sampleRaw.cases[0]? = some plainResult.prev_cases := by
  have h := c6_day0_prev_cases sampleRaw
    { delay_days := 1, start_model := 0, mask_modifier := false,
      mask_day := 65 } plainResult rfl
  exact ⟨h.1, h.2.1 (by norm_num)⟩

/-- Claim C7: with the trainer and forward pass deterministic functions of
their arguments, processing the reporting rates in any order fills the
forecast dictionaries with identical contents under every rate key. -/
theorem c7_rate_order_independence (trn : TrainerFun) (mobility : List Row)
    (cases : List ℚ) (population prev_cases : ℚ)
    (county_name weights_dir_base : String) (fp : FitParams)
    (fo : ForecastParams) (rates1 rates2 : List ℚ)
    (hperm : rates1.Perm rates2) :
    pipelineRatesLoop trn mobility cases population prev_cases county_name
        weights_dir_base fp fo rates1 =
      pipelineRatesLoop trn mobility cases population prev_cases county_name
        weights_dir_base fp fo rates2 := by
  funext r
  unfold pipelineRatesLoop
  rw [updateLoop_lookup, updateLoop_lookup]
  by_cases hr : r ∈ rates1
  · rw [if_pos hr, if_pos (hperm.mem_iff.mp hr)]
  · rw [if_neg hr, if_neg (fun hc => hr (hperm.mem_iff.mpr hc))]

/-- Witness for C7: swapping two concrete reporting rates leaves the
filled dictionary unchanged. -/
theorem c7_rate_order_witness :
    pipelineRatesLoop constTrainer [] [] 1 0 "Bexar" "weights"
      { estimated_r0 := 2, incubation_days := 5, n_epochs := 10,
        lr_step_size := 100 }
      { mobility_cases := [25], forecast_days := 3, mask_modifier := false,
        mask_day := 65 }
      [1 / 10, 3 / 10] =
    pipelineRatesLoop constTrainer [] [] 1 0 "Bexar" "weights"
      { estimated_r0 := 2, incubation_days := 5, n_epochs := 10,
        lr_step_size := 100 }
      { mobility_cases := [25], forecast_days := 3, mask_modifier := false,
        mask_day := 65 }
      [3 / 10, 1 / 10] :=
  c7_rate_order_independence constTrainer [] [] 1 0 "Bexar" "weights"
    { estimated_r0 := 2, incubation_days := 5, n_epochs := 10,
      lr_step_size := 100 }
    { mobility_cases := [25], forecast_days := 3, mask_modifier := false,
      mask_day := 65 }
    [1 / 10, 3 / 10] [3 / 10, 1 / 10]
    (List.Perm.swap (3 / 10) (1 / 10) [])

/-- Claim C8: on an active series with a unique maximum at index k whose
date axis covers k, the reporting step returns exactly the maximum value,
the index k and the date at k. -/
theorem c8_peak_detection (active : List ℚ) (dates : List String) (k : ℕ)
    (hk : k < active.length) (hkd : k < dates.length)
    (huniq : ∀ j, j < active.length → j ≠ k →
      active.getD j 0 < active.getD k 0) :
    reportPeak active dates = some (active.getD k 0, k, dates.getD k "") := by
  cases active with
  | nil => simp at hk
  | cons x xs =>
    have hble : ∀ y ∈ x :: xs, y ≤ xs.foldl max x := by
      intro y hy
      rcases List.mem_cons.mp hy with rfl | hy2
      · exact base_le_foldl_max y xs
      · exact mem_le_foldl_max x xs y hy2
    have hgetk : (x :: xs)[k]? = some ((x :: xs).getD k 0) := by
      rw [List.getD_eq_getElem?_getD, List.getElem?_eq_getElem hk]
      rfl
    have hkmem : (x :: xs).getD k 0 ∈ x :: xs := List.getElem?_mem hgetk
    obtain ⟨j, hj⟩ := List.mem_iff_getElem?.mp (foldl_max_mem x xs)
    have hjlen : j < (x :: xs).length := lt_length_of_getElem? _ _ _ hj
    have hjval : (x :: xs).getD j 0 = xs.foldl max x := by
      rw [List.getD_eq_getElem?_getD, hj]
      rfl
    have hM : xs.foldl max x = (x :: xs).getD k 0 := by
      rcases eq_or_ne j k with rfl | hne
      · rw [← hjval]
      · exfalso
        have hlt := huniq j hjlen hne
        rw [hjval] at hlt
        exact absurd (lt_of_le_of_lt (hble _ hkmem) hlt) (lt_irrefl _)
    have hfirst : ∀ i, i < k → (x :: xs)[i]? ≠ some (xs.foldl max x) := by
      intro i hik hcontra
      have hilen : i < (x :: xs).length := by omega
      have hival : (x :: xs).getD i 0 = xs.foldl max x := by
        rw [List.getD_eq_getElem?_getD, hcontra]
        rfl
      have hlt := huniq i hilen (by omega)
      rw [hival, hM] at hlt
      exact absurd hlt (lt_irrefl _)
    have hkM : (x :: xs)[k]? = some (xs.foldl max x) := by
      rw [hgetk, hM]
    have hmax : npMax (x :: xs) = some (xs.foldl max x) := rfl
    have harg : npArgmax (x :: xs) = some k := by
      unfold npArgmax
      rw [hmax]
      exact firstIdxOf_spec _ _ k hkM hfirst
    have hdate : dates[k]? = some (dates.getD k "") := by
      rw [List.getD_eq_getElem?_getD, List.getElem?_eq_getElem hkd]
      rfl
    unfold reportPeak
    simp only [hmax, harg, hdate, hM]

/-- Witness for C8: the series [1, 5, 2] has its unique maximum 5 at
index 1, reported with date b. -/
theorem c8_peak_witness :
    reportPeak [1, 5, 2] ["a", "b", "c"] = some (5, 1, "b") := by
  have h := c8_peak_detection [1, 5, 2] ["a", "b", "c"] 1 (by decide)
    (by decide) (by decide)
  simpa using h

/-- Claim C9: the hard-coded override of the last entry of the last
mobility row has no effect on anything load_data returns: whenever the
override version returns a result on six-entry rows, the version without
line 70 returns the identical result, because the overridden entry sits
in column 5, which the mandate step overwrites. -/
theorem c9_override_no_effect (raw : RawData) (p : LoadParams)
    (res : LoadResult) (hrows : ∀ row ∈ raw.mobility, row.length = 6)
    (h : loadData raw p = some res) :
    loadDataNoOverride raw p = some res := by
  obtain ⟨rm, rc, rd, rp, rpc⟩ := res
  obtain ⟨m2, hdate, hprev, hov, hmob, hcase, hpop⟩ := loadData_inv raw p _ h
  dsimp only at hdate hprev hmob hcase hpop
  obtain ⟨lastRow, hlast, hm2⟩ := overrideLastLast_inv _ 17 m2 hov
  have hlastMem : lastRow ∈ pySliceNeg raw.mobility p.delay_days := by
    rw [List.getLast?_eq_getElem?] at hlast
    exact List.getElem?_mem hlast
  have hlen6 : lastRow.length = 6 :=
    hrows lastRow (mem_of_mem_pySliceNeg _ _ _ hlastMem)
  have hkey : zeroMandateRows (pctRows m2) =
      zeroMandateRows (pctRows (pySliceNeg raw.mobility p.delay_days)) := by
    rw [hm2, hlen6]
    unfold pctRows zeroMandateRows
    rw [List.map_set, List.map_set, List.map_set, List.set_set]
    apply set_getElem?_self
    rw [List.getElem?_map, List.getElem?_map, ← List.getLast?_eq_getElem?,
      hlast]
    rfl
  have hms : mandateStep p.mask_modifier p.mask_day (pctRows m2) =
      mandateStep p.mask_modifier p.mask_day
        (pctRows (pySliceNeg raw.mobility p.delay_days)) := by
    unfold mandateStep
    rw [hkey]
  rw [loadDataNoOverride_eq_some raw p rd rpc hdate hprev]
  rw [hmob, hcase, hpop, hms]

/-- Witness for C9 on concrete data. -/
theorem c9_override_witness :
    loadDataNoOverride sampleRaw
      { delay_days := 1, start_model := 1, mask_modifier := false,
        mask_day := 65 } = some offsetResult :=
  c9_override_no_effect sampleRaw
    { delay_days := 1, start_model := 1, mask_modifier := false,
      mask_day := 65 } offsetResult (by decide) rfl

/-- Claim C10: with mask-modeling enabled and a positive warm-up offset,
the mandate column of the concatenated forecast trajectory is 1 at every
history index from maskDay - startModelOffset up to the history length,
carried over from the aligned historical mobility, and the forecast-time
overwrite touches only indices at and after maskDay, never resetting the
earlier entries. -/
theorem c10_history_mandate (raw : RawData) (p : LoadParams)
    (res : LoadResult) (hwf : raw.WF) (h : loadData raw p = some res)
    (hmm : p.mask_modifier = true) (hs : 0 < p.start_model)
    (case : ℚ) (fd : ℕ) :
    (∀ t, p.mask_day - p.start_model ≤ t → t < res.mobility.length →
      ((buildTrajectory res.mobility case fd true p.mask_day).getD
        t []).getD 5 0 = 1) ∧
    (∀ t, t < p.mask_day →
      (buildTrajectory res.mobility case fd true p.mask_day)[t]? =
        (res.mobility ++
          List.replicate fd ((List.replicate 6 (case / 100)).set 5 0))[t]?) := by
  have hspec := loadData_success_spec raw p res hwf h
  have htraj : buildTrajectory res.mobility case fd true p.mask_day =
      setMandateFrom p.mask_day
        (res.mobility ++
          List.replicate fd ((List.replicate 6 (case / 100)).set 5 0)) := by
    unfold buildTrajectory
    rw [if_pos rfl]
  constructor
  · intro t ht hlen
    have hrow : res.mobility[t]? = some res.mobility[t] :=
      List.getElem?_eq_getElem hlen
    have happ : (res.mobility ++
        List.replicate fd ((List.replicate 6 (case / 100)).set 5 0))[t]? =
        some res.mobility[t] := by
      rw [List.getElem?_append, if_pos hlen]
      exact hrow
    have hv := hspec.2.2.2.2.2.1 t _ hrow
    rw [hmm] at hv
    have h6 : (res.mobility[t]).length = 6 :=
      hspec.2.2.2.2.1 _ (List.getElem?_mem hrow)
    have hone : (res.mobility[t]).getD 5 0 = 1 := by
      rw [hv, if_pos ⟨rfl, by omega⟩]
    by_cases hmd : t < p.mask_day
    · have hsm : (setMandateFrom p.mask_day (res.mobility ++
          List.replicate fd ((List.replicate 6 (case / 100)).set 5 0)))[t]? =
          some res.mobility[t] := by
        rw [getElem?_setMandateFrom, if_pos hmd, happ]
      rw [htraj, getD_of_getElem? _ _ _ _ hsm]
      exact hone
    · have hsm : (setMandateFrom p.mask_day (res.mobility ++
          List.replicate fd ((List.replicate 6 (case / 100)).set 5 0)))[t]? =
          some (res.mobility[t].set 5 1) := by
        rw [getElem?_setMandateFrom, if_neg hmd, happ]
        rfl
      rw [htraj, getD_of_getElem? _ _ _ _ hsm]
      exact getD_set_self _ 5 1 (by omega)
  · intro t hmd
    rw [htraj, getElem?_setMandateFrom, if_pos hmd]

/-- Witness for C10: with delay 1, warm-up 2 and mandate day 3, the
history index 1 = 3 - 2 lies strictly before mask day 3 yet already
carries mandate value 1 in the forecast trajectory. -/
theorem c10_history_mandate_witness :
    ((buildTrajectory maskedResult.mobility 50 4 true 3).getD 1 []).getD 5 0
      = 1 :=
  (c10_history_mandate sampleRaw
    { delay_days := 1, start_model := 2, mask_modifier := true, mask_day := 3 }
    maskedResult ⟨rfl, rfl, by decide⟩ rfl rfl (by decide) 50 4).1 1
    (by decide) (by decide)

end FitBexar
